import Mathlib

/-!
Shallow embedding of `src/pages/api/subscribe.js` (a Next.js API route that
issues a one-time 10% welcome discount code), together with theorems settling
the specification claims.

External collaborators (the Shopify Admin GraphQL transport, nodemailer, the
crypto HMAC primitive, and the random-byte source) are modelled as oracle
fields of an `Env` record; each remote call either returns a value or throws,
which we model with `Except String`.  The handler is a pure function from the
environment and the request to a response paired with the list of outbound
effects it performed, in order.
-/

namespace WelcomeProxy

/-! ## Small string utilities (JS semantics, ASCII fragment) -/

/-- JS whitespace (the ASCII part of `\s`), used by `String.prototype.trim`
and the `\s` character class of the email regular expression. -/
def isSpaceJS (c : Char) : Bool :=
  c = ' ' || c = '\t' || c = '\n' || c = '\r' || c.toNat = 11 || c.toNat = 12

/-- Model of `String.prototype.trim` on a character list: drop JS whitespace from both
ends. -/
def trimJS (cs : List Char) : List Char :=
  ((cs.dropWhile isSpaceJS).reverse.dropWhile isSpaceJS).reverse

/-- Model of `String.prototype.toLowerCase`, modelled on the ASCII fragment. -/
def toLowerJS (cs : List Char) : List Char :=
  cs.map Char.toLower

/-- Test whether the list `l` starts with the list `sub`. -/
def startsWithSub : List Char → List Char → Bool
  | _, [] => true
  | [], _ :: _ => false
  | c :: cs, d :: ds => c = d && startsWithSub cs ds

/-- Model of `String.prototype.includes`: does `l` contain `sub` as a contiguous
substring? -/
def hasSub : List Char → List Char → Bool
  | [], sub => sub.isEmpty
  | c :: cs, sub => startsWithSub (c :: cs) sub || hasSub cs sub

/-! ## Hex encoding / decoding and the timing-safe compare -/

/-- Value of a hexadecimal digit, accepting both cases (Node `Buffer.from`
with encoding `hex` is case-insensitive). -/
def hexDigitVal (c : Char) : Option Nat :=
  if '0' ≤ c ∧ c ≤ '9' then some (c.toNat - 48)
  else if 'a' ≤ c ∧ c ≤ 'f' then some (c.toNat - 87)
  else if 'A' ≤ c ∧ c ≤ 'F' then some (c.toNat - 55)
  else none

/-- Node `Buffer.from(s, 'hex')`: decode two characters per byte and stop at
the first pair that is invalid or incomplete, keeping the bytes decoded so
far. -/
def nodeHexDecode : List Char → List Nat
  | c1 :: c2 :: rest =>
    match hexDigitVal c1, hexDigitVal c2 with
    | some h, some l => (16 * h + l) :: nodeHexDecode rest
    | _, _ => []
  | _ => []

/-- Model of `crypto.timingSafeEqual` on byte lists: `none` models the `RangeError`
thrown when the lengths differ; otherwise the boolean result of the byte
comparison. -/
def timingSafeEq (a b : List Nat) : Option Bool :=
  if a.length = b.length then some (decide (a = b)) else none

/-- Hex digit characters as produced by `Buffer.toString('hex')`
(lowercase). -/
def hexChar (n : Nat) : Char :=
  if n < 10 then Char.ofNat (48 + n) else Char.ofNat (97 + (n - 10))

/-- One byte rendered as two lowercase hex characters. -/
def byteToHex (b : Nat) : List Char :=
  [hexChar (b / 16), hexChar (b % 16)]

/-! ## Signature verifier (`verifyProxySignature`, lines 14-29)

The `URL` constructor's parse of `https://host + req.url` is modelled as an
already-parsed `Option (pathname, query parameters in order)`; `none` models
the constructor throwing, which the function's `try/catch` turns into
`false`.  `URLSearchParams` is modelled as the ordered association list of
decoded key/value pairs; its serializer is modelled as plain
`k=v` joined by `&` (percent re-encoding is the identity on the fragment we
quantify over).  The HMAC primitive `crypto.createHmac('sha256', secret)
.update(base).digest('hex')` is an oracle `hmacHex : secret → base → hex
digest`. -/

/-- Model of `url.searchParams.get k`: first value bound to `k`, if any. -/
def jsGetParam (ps : List (String × String)) (k : String) : Option String :=
  (ps.find? (fun kv => kv.1 = k)).map (fun kv => kv.2)

/-- Model of `url.searchParams.delete k`: remove every pair bound to `k`. -/
def jsDeleteParam (ps : List (String × String)) (k : String) :
    List (String × String) :=
  ps.filter (fun kv => kv.1 ≠ k)

/-- Model of `url.searchParams.toString()` (identity-encoding model). -/
def serializeParams (ps : List (String × String)) : String :=
  String.intercalate "&" (ps.map (fun kv => kv.1 ++ "=" ++ kv.2))

/-- Line 20: `url.pathname + (url.searchParams.toString() ? '?' + ... : '')`
after the signature parameter has been deleted. -/
def verifyBase (path : String) (ps : List (String × String)) : String :=
  let rest := serializeParams (jsDeleteParam ps "signature")
  path ++ (if rest ≠ "" then "?" ++ rest else "")

/-- Lines 14-29.  `parsed = none` is the `URL` constructor throwing.  An
absent or empty `signature` parameter returns `false` (line 18).  The final
compare decodes both the submitted signature and the expected digest as hex
byte buffers and compares them with `timingSafeEqual`; a length mismatch
throws and is caught, yielding `false`. -/
def verifyProxySignature (hmacHex : String → String → String)
    (secret : String) (parsed : Option (String × List (String × String))) :
    Bool :=
  match parsed with
  | none => false
  | some (path, ps) =>
    match jsGetParam ps "signature" with
    | none => false
    | some sig =>
      if sig = "" then false
      else
        let expected := hmacHex secret (verifyBase path ps)
        match timingSafeEq (nodeHexDecode sig.data)
            (nodeHexDecode expected.data) with
        | none => false
        | some b => b

/-! ## Order lookup (`emailHasAnyOrders`, lines 45-50)

The platform's order store is a list of orders; a Shopify order's fulfillment
status can be `unfulfilled`, partially fulfilled, or `fulfilled`.  Line 46
builds the search string
`email:E AND (fulfillment_status:unfulfilled OR fulfillment_status:fulfilled)`;
`orderMatchesSearch` is the platform's evaluation of exactly that search on
one order. -/

/-- Fulfillment status of an order on the commerce platform. -/
inductive FulfillStatus
  | unfulfilled
  | partlyFulfilled
  | fulfilled
deriving DecidableEq, Repr

/-- An order as far as this system observes it: the buyer's email and the
fulfillment status. -/
structure Order where
  email : String
  status : FulfillStatus
deriving DecidableEq, Repr

/-- The search string the code builds at line 46. -/
def ordersSearchQuery (email : String) : String :=
  "email:" ++ email ++
    " AND (fulfillment_status:unfulfilled OR fulfillment_status:fulfilled)"

/-- Platform evaluation of the line-46 search string on a single order:
the email matches and the fulfillment status is `unfulfilled` or
`fulfilled`. -/
def orderMatchesSearch (email : String) (o : Order) : Bool :=
  o.email = email &&
    (o.status = FulfillStatus.unfulfilled || o.status = FulfillStatus.fulfilled)

/-- Lines 45-50: run the line-46 search with `first:1` and report whether the
edge list is non-empty. -/
def emailHasAnyOrders (store : List Order) (email : String) : Bool :=
  decide (0 < ((store.filter (orderMatchesSearch email)).take 1).length)

/-! ## Code minting (`makeCode`, lines 52-54, and
`createOneTimeTenPercent`, lines 56-79) -/

/-- The hex rendering of the random bytes, uppercased:
`crypto.randomBytes(3).toString('hex').toUpperCase()` of line 53. -/
def upperHexStr (bs : List Nat) : String :=
  String.mk (((bs.map byteToHex).flatten).map Char.toUpper)

/-- Line 53: the literal text `WELCOME-` followed by the uppercased hex
rendering of the three random bytes drawn for this attempt. -/
def makeCode (bs : List Nat) : String :=
  "WELCOME-" ++ upperHexStr bs

/-- The `DiscountCodeBasicInput` object built at lines 66-74.  The source
object has exactly these fields — in particular no end date, so the discount
never expires.  The JSON literal `0.1` is represented as the rational
`1/10`. -/
structure DiscountInput where
  title : String
  startsAt : String
  usageLimit : Nat
  appliesOncePerCustomer : Bool
  customerSelectionAll : Bool
  percentage : Rat
  itemsAll : Bool
  code : String
deriving DecidableEq, Repr

/-- Lines 66-74: the input object for `discountCodeBasicCreate`, given the
current timestamp (for `startsAt`) and the candidate code. -/
def mkDiscountInput (now code : String) : DiscountInput :=
  { title := "Welcome 10% - First Purchase"
    startsAt := now
    usageLimit := 1
    appliesOncePerCustomer := true
    customerSelectionAll := true
    percentage := 1 / 10
    itemsAll := true
    code := code }

/-! ## Customer lookup (`getCustomerAndExistingCode`, lines 81-99) -/

/-- A customer record as returned by the `customers(first:1)` query: the id
and the value of the `welcome`/`code` metafield (`none` when the metafield is
absent). -/
structure PlatformCustomer where
  id : String
  metafieldValue : Option String
deriving DecidableEq, Repr

/-! ## Effects and the environment -/

/-- One outbound call performed by the handler, recorded in order. -/
inductive Effect
  | customersQuery (email : String)
  | customerCreate (email : String)
  | ordersQuery (q : String)
  | discountCreate (input : DiscountInput)
  | metafieldSet (ownerId ns key value : String)
  | emailSend (toAddr code : String)
deriving DecidableEq, Repr

/-- Oracle for every external collaborator: each field gives the outcome the
outside world would return for the corresponding call.  `Except.error m`
models the call throwing an `Error` whose message is `m` (the code wraps
both transport failures and platform `userErrors` into thrown errors). -/
structure Env where
  /-- Oracle for `crypto.createHmac('sha256', secret).update(base).digest('hex')`. -/
  hmacHex : String → String → String
  /-- The `APP_PROXY_SIGNING_SECRET` environment variable. -/
  secret : String
  /-- Result of the `customers(first:1, query:"email:...")` query (lines
  82-87): the first edge, if any, or a thrown error. -/
  customerQuery : String → Except String (Option PlatformCustomer)
  /-- Result of the `customerCreate` mutation (lines 92-97): the new
  customer's id, or a thrown error (including joined `userErrors`). -/
  customerCreateRes : String → Except String String
  /-- Result of the orders search (lines 45-50) for a given email: the
  boolean `edges.length > 0`, or a thrown transport error. -/
  ordersResult : String → Except String Bool
  /-- The three bytes `crypto.randomBytes(3)` returns on its n-th call. -/
  randBytes3 : Nat → List Nat
  /-- Result of the `discountCodeBasicCreate` mutation on the n-th minting
  attempt: `some s` when the response carries a code node with code `s`,
  `none` when the optional-chained path is absent (line 78 then falls back
  to the candidate), or a thrown error. -/
  createDiscount : Nat → DiscountInput → Except String (Option String)
  /-- Result of the `metafieldsSet` mutation (lines 101-115). -/
  metafieldRes : Except String Unit
  /-- Result of `transport.sendMail` (lines 117-133). -/
  sendMailRes : Except String Unit
  /-- The timestamp `new Date().toISOString()` (line 68). -/
  now : String

/-- Lines 81-99.  Look the customer up by email; when found, the existing
code is the metafield value unless it is falsy (`?.value || null` maps both
an absent metafield and an empty-string value to `null`).  When no customer
is found, create a minimal one with no existing code. -/
def getCustomerAndExistingCode (env : Env) (email : String) :
    Except String (String × Option String) × List Effect :=
  match env.customerQuery email with
  | Except.error m => (Except.error m, [Effect.customersQuery email])
  | Except.ok (some pc) =>
    (Except.ok (pc.id,
        match pc.metafieldValue with
        | some v => if v = "" then none else some v
        | none => none),
      [Effect.customersQuery email])
  | Except.ok none =>
    match env.customerCreateRes email with
    | Except.error m =>
      (Except.error m, [Effect.customersQuery email, Effect.customerCreate email])
    | Except.ok newId =>
      (Except.ok (newId, none),
        [Effect.customersQuery email, Effect.customerCreate email])

/-- Lines 76-78 as seen by the loop: turn the mutation outcome into the final
code, honouring the platform's returned code when it is truthy and falling
back to the candidate otherwise. -/
def finalizeCode (candidate : String) (nodeCode : Option String) : String :=
  match nodeCode with
  | some s => if s = "" then candidate else s
  | none => candidate

/-- The substring test of line 166:
`String(e.message).toLowerCase().includes('has already been taken')`. -/
def msgSaysTaken (m : String) : Bool :=
  hasSub (toLowerJS m.data) "has already been taken".data

/-- The minting loop of lines 157-169.  `t` is the number of attempts already
made (so attempt `t` draws `randBytes3 t`), `fuel` the number of iterations
the `tries < 5` guard still allows.  Returns the loop's outcome — the final
code, or the error it throws (a non-collision creation error re-raised from
inside the loop, or `Could not mint unique code` when the budget is
exhausted) — together with the discount-creation effects performed. -/
def mintAttempts (env : Env) : Nat → Nat → Except String String × List Effect
  | _, 0 => (Except.error "Could not mint unique code", [])
  | t, fuel + 1 =>
    let candidate := makeCode (env.randBytes3 t)
    let input := mkDiscountInput env.now candidate
    match env.createDiscount t input with
    | Except.ok nodeCode =>
      (Except.ok (finalizeCode candidate nodeCode), [Effect.discountCreate input])
    | Except.error m =>
      if msgSaysTaken m then
        let rest := mintAttempts env (t + 1) fuel
        (rest.1, Effect.discountCreate input :: rest.2)
      else
        (Except.error m, [Effect.discountCreate input])

/-! ## The handler (lines 135-179) -/

/-- Line 140: `String(req.body?.email || '').trim().toLowerCase()`.  The
body's email field is `Option String` (`none` when the body or the field is
absent, coerced to the empty string). -/
def normalizeEmail (raw : Option String) : String :=
  String.mk (toLowerJS (trimJS (raw.getD "").data))

/-- The test of the regular expression of line 141,
`^[^\s@]+@[^\s@]+\.[^\s@]+$`, as a decision procedure: the string matches
iff it decomposes as `l ++ "@" ++ m ++ "." ++ t` with `l`, `m`, `t`
non-empty and free of whitespace and `@`.  Equivalently: exactly one `@`;
the part before it non-empty and whitespace-free; the part after it
non-empty, whitespace-free, and containing a `.` that is neither its first
nor its last character (`m` and `t` themselves may contain further dots,
since `[^\s@]` admits `.`). -/
def emailRegexOK (s : String) : Bool :=
  let cs := s.data
  cs.count '@' = 1 &&
    (let l := cs.takeWhile (fun c => c ≠ '@')
     let r := (cs.dropWhile (fun c => c ≠ '@')).drop 1
     !l.isEmpty && l.all (fun c => !isSpaceJS c) &&
       !r.isEmpty && r.all (fun c => !isSpaceJS c) &&
       ((r.drop 1).dropLast.contains '.'))

/-- An inbound HTTP request as the handler observes it: the method, the parse
of `https://req.headers.host + req.url` (see `verifyProxySignature`), and the
body's email field. -/
structure Request where
  method : String
  urlParts : Option (String × List (String × String))
  bodyEmail : Option String
deriving DecidableEq

/-- An HTTP response: status (200 when `res.json` is called without
`res.status`), the `ok` flag, and the `message` field. -/
structure Response where
  status : Nat
  ok : Bool
  message : String
deriving DecidableEq, Repr

/-- The 500 response produced by the catch-all of lines 175-178. -/
def serverError : Response := ⟨500, false, "Server error. Please try again later."⟩

/-- Lines 145-174: the part of the handler after method, signature and email
checks have passed, given the normalized email.  Every `await`ed call that
throws is caught by the handler's single `try/catch` and mapped to the 500
response; here each such propagation is applied at the throw site, which is
equivalent because every statement after a throw is skipped. -/
def issueFlow (env : Env) (email : String) : Response × List Effect :=
  match getCustomerAndExistingCode env email with
  | (Except.error _, tr) => (serverError, tr)
  | (Except.ok (customerId, existingCode), tr) =>
    match existingCode with
    | some c =>
      match env.sendMailRes with
      | Except.error _ => (serverError, tr ++ [Effect.emailSend email c])
      | Except.ok _ =>
        (⟨200, true, "Code already issued; re-sent to your email."⟩,
          tr ++ [Effect.emailSend email c])
    | none =>
      let trO := tr ++ [Effect.ordersQuery (ordersSearchQuery email)]
      match env.ordersResult email with
      | Except.error _ => (serverError, trO)
      | Except.ok true =>
        (⟨409, false, "Coupon codes are for first purchase only."⟩, trO)
      | Except.ok false =>
        let minted := mintAttempts env 0 5
        let trM := trO ++ minted.2
        match minted.1 with
        | Except.error _ => (serverError, trM)
        | Except.ok code =>
          let trS := trM ++ [Effect.metafieldSet customerId "welcome" "code" code]
          match env.metafieldRes with
          | Except.error _ => (serverError, trS)
          | Except.ok _ =>
            match env.sendMailRes with
            | Except.error _ => (serverError, trS ++ [Effect.emailSend email code])
            | Except.ok _ =>
              (⟨200, true, "Your 10% code has been emailed."⟩,
                trS ++ [Effect.emailSend email code])

/-- Lines 135-179: the exported handler.  Non-POST methods are rejected with
405 (line 137); a failed signature check with 401 (line 138); a falsy or
regex-rejected email with 400 (lines 140-143); then control passes to the
issuance flow. -/
def handler (env : Env) (req : Request) : Response × List Effect :=
  if req.method ≠ "POST" then (⟨405, false, "Method not allowed"⟩, [])
  else if verifyProxySignature env.hmacHex env.secret req.urlParts = false then
    (⟨401, false, "Unauthorised"⟩, [])
  else
    let email := normalizeEmail req.bodyEmail
    if email = "" || !emailRegexOK email then
      (⟨400, false, "Please enter a valid email."⟩, [])
    else issueFlow env email

/-! ## Trace observations -/

/-- Test for a discount-creation effect. -/
def isDiscountCreate : Effect → Bool
  | Effect.discountCreate _ => true
  | _ => false

/-- Test for an email-send effect. -/
def isEmailSend : Effect → Bool
  | Effect.emailSend _ _ => true
  | _ => false

/-- Test for a metafield-write effect. -/
def isMetafieldSet : Effect → Bool
  | Effect.metafieldSet _ _ _ _ => true
  | _ => false

/-- The `(recipient, code)` pairs of the email sends in a trace, in order. -/
def emailSendsOf (tr : List Effect) : List (String × String) :=
  tr.filterMap (fun e =>
    match e with
    | Effect.emailSend a c => some (a, c)
    | _ => none)

/-- Number of discount-creation calls recorded in a trace. -/
def createCount (tr : List Effect) : Nat :=
  tr.countP isDiscountCreate

/-! ## Helper lemmas -/

theorem emailRegexOK_ne_empty {e : String} (h : emailRegexOK e = true) :
    e ≠ "" := by
  intro he
  subst he
  simp [emailRegexOK] at h

theorem handler_passes_gate (env : Env) (req : Request)
    (hm : req.method = "POST")
    (hv : verifyProxySignature env.hmacHex env.secret req.urlParts = true)
    (he : emailRegexOK (normalizeEmail req.bodyEmail) = true) :
    handler env req = issueFlow env (normalizeEmail req.bodyEmail) := by
  have hne : normalizeEmail req.bodyEmail ≠ "" := emailRegexOK_ne_empty he
  unfold handler
  simp [hm, hv, he, hne]

theorem getCustomer_trace_shape (env : Env) (email : String) :
    (getCustomerAndExistingCode env email).2 = [Effect.customersQuery email] ∨
      (getCustomerAndExistingCode env email).2 =
        [Effect.customersQuery email, Effect.customerCreate email] := by
  unfold getCustomerAndExistingCode
  cases h : env.customerQuery email with
  | error m => simp
  | ok o =>
    cases o with
    | none =>
      cases h2 : env.customerCreateRes email with
      | error m => simp
      | ok newId => simp
    | some pc => simp

theorem emailSendsOf_append (a b : List Effect) :
    emailSendsOf (a ++ b) = emailSendsOf a ++ emailSendsOf b := by
  simp [emailSendsOf]

theorem createCount_append (a b : List Effect) :
    createCount (a ++ b) = createCount a + createCount b := by
  simp [createCount, List.countP_append]

theorem getCustomer_no_mutations (env : Env) (email : String)
    (r : Except String (String × Option String)) (tr : List Effect)
    (h : getCustomerAndExistingCode env email = (r, tr)) :
    emailSendsOf tr = [] ∧ createCount tr = 0 ∧
      tr.countP isMetafieldSet = 0 := by
  rcases getCustomer_trace_shape env email with hs | hs <;>
  · rw [h] at hs
    dsimp only at hs
    subst hs
    simp [emailSendsOf, createCount, isDiscountCreate, isMetafieldSet]

/-! ## C1: resend path -/

/-- C1.  For every verified, validated request whose email resolves to a
customer with a stored issuance code, the handler sends exactly that stored
code by email, performs no discount creation, and responds 200 with
`ok = true`; and any second verified, validated request with the same
(normalized) email produces the identical response and effect trace — in
particular it sends the same code. -/
theorem C1_resend_stored_code (env : Env) (req : Request) (cid c : String)
    (tr : List Effect)
    (hm : req.method = "POST")
    (hv : verifyProxySignature env.hmacHex env.secret req.urlParts = true)
    (he : emailRegexOK (normalizeEmail req.bodyEmail) = true)
    (hc : getCustomerAndExistingCode env (normalizeEmail req.bodyEmail) =
      (Except.ok (cid, some c), tr))
    (hs : env.sendMailRes = Except.ok ()) :
    (handler env req).1 = ⟨200, true, "Code already issued; re-sent to your email."⟩ ∧
      emailSendsOf (handler env req).2 = [(normalizeEmail req.bodyEmail, c)] ∧
      createCount (handler env req).2 = 0 ∧
      (∀ req2 : Request, req2.method = "POST" →
        verifyProxySignature env.hmacHex env.secret req2.urlParts = true →
        normalizeEmail req2.bodyEmail = normalizeEmail req.bodyEmail →
        handler env req2 = handler env req) := by
  have hg := handler_passes_gate env req hm hv he
  have hflow : issueFlow env (normalizeEmail req.bodyEmail) =
      (⟨200, true, "Code already issued; re-sent to your email."⟩,
        tr ++ [Effect.emailSend (normalizeEmail req.bodyEmail) c]) := by
    unfold issueFlow
    rw [hc, hs]
  obtain ⟨h1, h2, h3⟩ :=
    getCustomer_no_mutations env (normalizeEmail req.bodyEmail) _ _ hc
  refine ⟨?_, ?_, ?_, ?_⟩
  · rw [hg, hflow]
  · rw [hg, hflow]
    dsimp only
    rw [emailSendsOf_append, h1]
    simp [emailSendsOf]
  · rw [hg, hflow]
    dsimp only
    rw [createCount_append, h2]
    simp [createCount, isDiscountCreate]
  · intro req2 hm2 hv2 heq
    have he2 : emailRegexOK (normalizeEmail req2.bodyEmail) = true := by
      rw [heq]; exact he
    rw [handler_passes_gate env req2 hm2 hv2 he2, hg, heq]

/-! ## C2: conflict path -/

theorem emailHasAnyOrders_true_of_matching (store : List Order) (email : String)
    (h : ∃ o ∈ store, o.email = email ∧
      (o.status = FulfillStatus.unfulfilled ∨
        o.status = FulfillStatus.fulfilled)) :
    emailHasAnyOrders store email = true := by
  obtain ⟨o, hmem, heq, hs⟩ := h
  have hf : o ∈ store.filter (orderMatchesSearch email) := by
    rw [List.mem_filter]
    refine ⟨hmem, ?_⟩
    unfold orderMatchesSearch
    rcases hs with h | h <;> simp [heq, h]
  have hne : store.filter (orderMatchesSearch email) ≠ [] := by
    intro hnil
    rw [hnil] at hf
    simp at hf
  have hlen : 0 < (store.filter (orderMatchesSearch email)).length :=
    List.length_pos.mpr hne
  unfold emailHasAnyOrders
  rw [decide_eq_true_eq]
  simp [List.length_take]
  omega

/-- C2 (amended).  For every verified, validated request whose email has no
stored issuance code but at least one order that the line-46 search matches —
an order with fulfillment status `unfulfilled` or `fulfilled`, the
environment answering the search over the given order store — the handler
responds 409 with `ok = false`, and the effect trace contains no discount
creation, no email send, and no metafield write.  An existing order in any
other fulfillment state does not trigger the 409: the handler then proceeds
to mint, write and mail (see the counterexample). -/
theorem C2_conflict_no_mutation (env : Env) (req : Request) (cid : String)
    (tr : List Effect) (store : List Order)
    (hm : req.method = "POST")
    (hv : verifyProxySignature env.hmacHex env.secret req.urlParts = true)
    (he : emailRegexOK (normalizeEmail req.bodyEmail) = true)
    (hc : getCustomerAndExistingCode env (normalizeEmail req.bodyEmail) =
      (Except.ok (cid, none), tr))
    (hstore : env.ordersResult (normalizeEmail req.bodyEmail) =
      Except.ok (emailHasAnyOrders store (normalizeEmail req.bodyEmail)))
    (horder : ∃ o ∈ store, o.email = normalizeEmail req.bodyEmail ∧
      (o.status = FulfillStatus.unfulfilled ∨
        o.status = FulfillStatus.fulfilled)) :
    (handler env req).1 = ⟨409, false, "Coupon codes are for first purchase only."⟩ ∧
      createCount (handler env req).2 = 0 ∧
      emailSendsOf (handler env req).2 = [] ∧
      (handler env req).2.countP isMetafieldSet = 0 := by
  have ho : env.ordersResult (normalizeEmail req.bodyEmail) = Except.ok true := by
    rw [hstore, emailHasAnyOrders_true_of_matching store _ horder]
  have hg := handler_passes_gate env req hm hv he
  have hflow : issueFlow env (normalizeEmail req.bodyEmail) =
      (⟨409, false, "Coupon codes are for first purchase only."⟩,
        tr ++ [Effect.ordersQuery (ordersSearchQuery (normalizeEmail req.bodyEmail))]) := by
    unfold issueFlow
    rw [hc, ho]
  obtain ⟨h1, h2, h3⟩ :=
    getCustomer_no_mutations env (normalizeEmail req.bodyEmail) _ _ hc
  refine ⟨?_, ?_, ?_, ?_⟩
  · rw [hg, hflow]
  · rw [hg, hflow]
    dsimp only
    rw [createCount_append, h2]
    simp [createCount, isDiscountCreate]
  · rw [hg, hflow]
    dsimp only
    rw [emailSendsOf_append, h1]
    simp [emailSendsOf]
  · rw [hg, hflow]
    dsimp only
    rw [List.countP_append, h3]
    simp [isMetafieldSet]

/-! ## C3: minting loop -/

/-- The `DiscountCodeBasicInput` submitted on minting attempt `t` (the
candidate of attempt `t` is drawn from the t-th `randomBytes(3)` call). -/
def attemptInput (env : Env) (t : Nat) : DiscountInput :=
  mkDiscountInput env.now (makeCode (env.randBytes3 t))

theorem mintAttempts_succ (env : Env) (t fuel : Nat) :
    mintAttempts env t (fuel + 1) =
      match env.createDiscount t (attemptInput env t) with
      | Except.ok nodeCode =>
        (Except.ok (finalizeCode (makeCode (env.randBytes3 t)) nodeCode),
          [Effect.discountCreate (attemptInput env t)])
      | Except.error m =>
        if msgSaysTaken m then
          ((mintAttempts env (t + 1) fuel).1,
            Effect.discountCreate (attemptInput env t) ::
              (mintAttempts env (t + 1) fuel).2)
        else (Except.error m, [Effect.discountCreate (attemptInput env t)]) :=
  rfl

theorem mintAttempts_count_le (env : Env) :
    ∀ fuel t, createCount (mintAttempts env t fuel).2 ≤ fuel := by
  intro fuel
  induction fuel with
  | zero => intro t; simp [mintAttempts, createCount]
  | succ n ih =>
    intro t
    rw [mintAttempts_succ]
    cases h : env.createDiscount t (attemptInput env t) with
    | ok c =>
      simp [createCount, List.countP_cons, isDiscountCreate]
    | error m =>
      by_cases ht : msgSaysTaken m
      · have := ih (t + 1)
        simp only [ht, if_true]
        simp [createCount, List.countP_cons, isDiscountCreate] at this ⊢
        omega
      · simp [ht, createCount, List.countP_cons, isDiscountCreate]

theorem mintAttempts_all_taken (env : Env) :
    ∀ fuel t,
      (∀ k, t ≤ k → k < t + fuel →
        ∃ m, env.createDiscount k (attemptInput env k) = Except.error m ∧
          msgSaysTaken m = true) →
      (mintAttempts env t fuel).1 = Except.error "Could not mint unique code" ∧
        createCount (mintAttempts env t fuel).2 = fuel := by
  intro fuel
  induction fuel with
  | zero => intro t _; simp [mintAttempts, createCount]
  | succ n ih =>
    intro t hall
    obtain ⟨m, hm, htk⟩ := hall t (Nat.le_refl t) (by omega)
    have hrest := ih (t + 1) (fun k hk1 hk2 => hall k (by omega) (by omega))
    rw [mintAttempts_succ, hm]
    simp only [htk, if_true]
    constructor
    · exact hrest.1
    · have h2 := hrest.2
      simp [createCount, List.countP_cons, isDiscountCreate] at h2 ⊢
      omega

/-- C3.  The minting loop performs at most 5 discount-creation calls; when a
creation error's message does not indicate a taken code value it re-raises
that error immediately (the trace of the remaining loop is exactly the one
failed attempt); when the message does indicate a taken value the loop
regenerates and retries (one creation effect followed by the next
iteration); and when all 5 attempts collide it fails with the error
`Could not mint unique code` after exactly 5 creation calls. -/
theorem C3_mint_retry_policy (env : Env) :
    createCount (mintAttempts env 0 5).2 ≤ 5 ∧
      (∀ t fuel m,
        env.createDiscount t (attemptInput env t) = Except.error m →
        msgSaysTaken m = false →
        mintAttempts env t (fuel + 1) =
          (Except.error m, [Effect.discountCreate (attemptInput env t)])) ∧
      (∀ t fuel m,
        env.createDiscount t (attemptInput env t) = Except.error m →
        msgSaysTaken m = true →
        mintAttempts env t (fuel + 1) =
          ((mintAttempts env (t + 1) fuel).1,
            Effect.discountCreate (attemptInput env t) ::
              (mintAttempts env (t + 1) fuel).2)) ∧
      ((∀ k, k < 5 →
          ∃ m, env.createDiscount k (attemptInput env k) = Except.error m ∧
            msgSaysTaken m = true) →
        (mintAttempts env 0 5).1 = Except.error "Could not mint unique code" ∧
          createCount (mintAttempts env 0 5).2 = 5) := by
  refine ⟨mintAttempts_count_le env 5 0, ?_, ?_, ?_⟩
  · intro t fuel m hm htk
    rw [mintAttempts_succ, hm]
    simp [htk]
  · intro t fuel m hm htk
    rw [mintAttempts_succ, hm]
    simp [htk]
  · intro hall
    exact mintAttempts_all_taken env 5 0 (fun k _ hk2 => hall k (by omega))

/-! ## Concrete environments and requests for witnesses -/

/-- An HMAC oracle returning a fixed two-hex-character digest, for concrete
evaluation. -/
def hmacFix : String → String → String := fun _ _ => "ab"

/-- Base concrete environment: customer `gid1` has the stored code
`WELCOME-ABC123`, no orders, every call succeeds. -/
def envResend : Env :=
  { hmacHex := hmacFix
    secret := "s"
    customerQuery := fun _ => Except.ok (some ⟨"gid1", some "WELCOME-ABC123"⟩)
    customerCreateRes := fun _ => Except.ok "gid2"
    ordersResult := fun _ => Except.ok false
    randBytes3 := fun _ => [1, 2, 3]
    createDiscount := fun _ _ => Except.ok (some "WELCOME-010203")
    metafieldRes := Except.ok ()
    sendMailRes := Except.ok ()
    now := "2026-01-01T00:00:00.000Z" }

/-- A verified, validated concrete request (the fixed oracle digest `ab`
matches the `signature` parameter). -/
def reqGood : Request :=
  ⟨"POST", some ("/apps/welcome", [("signature", "ab")]), some " User@Example.com "⟩

theorem C1_resend_stored_code_witness :
    (handler envResend reqGood).1 =
        ⟨200, true, "Code already issued; re-sent to your email."⟩ ∧
      emailSendsOf (handler envResend reqGood).2 =
        [("user@example.com", "WELCOME-ABC123")] ∧
      createCount (handler envResend reqGood).2 = 0 := by
  have h := C1_resend_stored_code envResend reqGood "gid1" "WELCOME-ABC123"
    [Effect.customersQuery "user@example.com"]
    (by decide) (by decide) (by decide) rfl rfl
  exact ⟨h.1, h.2.1, h.2.2.1⟩

/-- Order store with one fulfilled order for the witness email. -/
def storeConflict : List Order :=
  [⟨"user@example.com", FulfillStatus.fulfilled⟩]

/-- Concrete environment for the conflict path: the customer exists with no
metafield, and a fulfilled order exists for the email (the orders oracle
answers the line-46 search over `storeConflict`). -/
def envConflict : Env :=
  { envResend with
    customerQuery := fun _ => Except.ok (some ⟨"gid1", none⟩)
    ordersResult := fun e => Except.ok (emailHasAnyOrders storeConflict e) }

theorem C2_conflict_no_mutation_witness :
    (handler envConflict reqGood).1 =
        ⟨409, false, "Coupon codes are for first purchase only."⟩ ∧
      createCount (handler envConflict reqGood).2 = 0 ∧
      emailSendsOf (handler envConflict reqGood).2 = [] ∧
      (handler envConflict reqGood).2.countP isMetafieldSet = 0 :=
  C2_conflict_no_mutation envConflict reqGood "gid1"
    [Effect.customersQuery "user@example.com"] storeConflict
    (by decide) (by decide) (by decide) rfl rfl
    ⟨⟨"user@example.com", FulfillStatus.fulfilled⟩, by decide, by decide,
      Or.inr rfl⟩

/-- Order store with one partially fulfilled order for the counterexample
email. -/
def storePartial : List Order :=
  [⟨"user@example.com", FulfillStatus.partlyFulfilled⟩]

/-- Environment in which the request's email has an existing order that is
partially fulfilled, no stored code, and every downstream call succeeds (the
orders oracle answers the line-46 search over `storePartial`). -/
def envPartialOrder : Env :=
  { envResend with
    customerQuery := fun _ => Except.ok (some ⟨"gid1", none⟩)
    ordersResult := fun e => Except.ok (emailHasAnyOrders storePartial e) }

/-- C2 counterexample.  The claim says any existing order yields a 409 with
no minting, no notification and no mutation.  But an existing order that is
partially fulfilled is not matched by the line-46 search, so for a verified,
validated request whose email has such an order and no stored code the
handler does not respond 409: it responds 200, creates a discount, writes
the metafield and sends the code by email. -/
theorem C2_conflict_no_mutation_counterexample :
    (∃ o ∈ storePartial, o.email = "user@example.com") ∧
      (handler envPartialOrder reqGood).1 =
        ⟨200, true, "Your 10% code has been emailed."⟩ ∧
      ¬ (handler envPartialOrder reqGood).1.status = 409 ∧
      0 < createCount (handler envPartialOrder reqGood).2 ∧
      emailSendsOf (handler envPartialOrder reqGood).2 ≠ [] ∧
      0 < (handler envPartialOrder reqGood).2.countP isMetafieldSet := by
  decide

/-- Concrete environment in which every discount creation fails with a
collision ("has already been taken") error. -/
def envAllTaken : Env :=
  { envResend with
    createDiscount := fun _ _ => Except.error "Code has already been taken" }

/-- Concrete environment in which every discount creation fails with an
unrelated error. -/
def envBoom : Env :=
  { envResend with createDiscount := fun _ _ => Except.error "boom" }

theorem C3_mint_retry_policy_witness :
    (mintAttempts envAllTaken 0 5).1 = Except.error "Could not mint unique code" ∧
      createCount (mintAttempts envAllTaken 0 5).2 = 5 ∧
      mintAttempts envBoom 0 5 =
        (Except.error "boom", [Effect.discountCreate (attemptInput envBoom 0)]) := by
  have h1 := (C3_mint_retry_policy envAllTaken).2.2.2
    (fun k _ => ⟨"Code has already been taken", rfl, by decide⟩)
  have h2 := (C3_mint_retry_policy envBoom).2.1 0 4 "boom" rfl (by decide)
  exact ⟨h1.1, h1.2, h2⟩

/-! ## C4: signature verifier -/

/-- C4 (amended).  The verifier always returns a boolean: a malformed URL
(a throwing `URL` constructor) and a missing or empty `signature` parameter
yield `false`.  When a non-empty signature is present, the verifier returns
`true` iff the signature and the expected hex digest of the canonical base
(pathname plus the remaining parameters in their original order) decode to
hex byte buffers of equal length with equal contents — acceptance is up to
Node's tolerant, case-insensitive hex decoding of the `signature` value, not
string equality with the digest. -/
theorem C4_verifier_acceptance (hmacHex : String → String → String)
    (secret path : String) (ps : List (String × String)) :
    verifyProxySignature hmacHex secret none = false ∧
      (jsGetParam ps "signature" = none →
        verifyProxySignature hmacHex secret (some (path, ps)) = false) ∧
      (∀ sig, jsGetParam ps "signature" = some sig →
        (verifyProxySignature hmacHex secret (some (path, ps)) = true ↔
          sig ≠ "" ∧
            timingSafeEq (nodeHexDecode sig.data)
                (nodeHexDecode (hmacHex secret (verifyBase path ps)).data) =
              some true)) := by
  refine ⟨rfl, ?_, ?_⟩
  · intro h
    simp only [verifyProxySignature]
    rw [h]
  · intro sig h
    simp only [verifyProxySignature]
    rw [h]
    by_cases hs : sig = ""
    · simp [hs]
    · simp only [hs, if_neg, if_false]
      cases ht : timingSafeEq (nodeHexDecode sig.data)
          (nodeHexDecode (hmacHex secret (verifyBase path ps)).data) with
      | none => simp [hs, ht]
      | some b =>
        cases b with
        | false => simp [hs, ht]
        | true => simp [hs, ht]

/-- C4 counterexample.  The claim says the verifier returns `true` iff the
`signature` parameter *equals* the hex-encoded digest, and that a signature
of the wrong length yields `false`.  Both fail: Node's hex decoding stops at
the first invalid character, so for *any* digest string `d` the signature
`d ++ "zz"` decodes to the same bytes as `d` and is accepted although it
differs from `d` and has a different length.  Concretely, with an HMAC
oracle whose digest is `ab`, the signature `abzz` is accepted. -/
theorem C4_verifier_acceptance_counterexample :
    verifyProxySignature hmacFix "secret"
        (some ("/apps/welcome", [("signature", "abzz")])) = true ∧
      jsGetParam [("signature", "abzz")] "signature" ≠
        some (hmacFix "secret"
          (verifyBase "/apps/welcome" [("signature", "abzz")])) ∧
      ("abzz".length ≠
        (hmacFix "secret"
          (verifyBase "/apps/welcome" [("signature", "abzz")])).length) := by
  refine ⟨by decide, by decide, by decide⟩

theorem C4_verifier_acceptance_witness :
    verifyProxySignature hmacFix "s" none = false ∧
      verifyProxySignature hmacFix "s" (some ("/p", [("a", "1")])) = false ∧
      verifyProxySignature hmacFix "s"
        (some ("/p", [("signature", "ab")])) = true := by
  have h := C4_verifier_acceptance hmacFix "s" "/p" [("a", "1")]
  have h2 := C4_verifier_acceptance hmacFix "s" "/p" [("signature", "ab")]
  refine ⟨h.1, h.2.1 (by decide), ?_⟩
  exact ((h2.2.2 "ab" (by decide)).mpr ⟨by decide, by decide⟩)

/-! ## C5: method gate -/

/-- C5 (amended).  Every request whose method is not POST is rejected
immediately with status 405 (`Method not allowed`, line 137) and body
`ok = false`, with an empty effect trace — no collaborator is invoked. -/
theorem C5_non_post_rejected (env : Env) (req : Request)
    (h : req.method ≠ "POST") :
    handler env req = (⟨405, false, "Method not allowed"⟩, []) := by
  unfold handler
  simp [h]

/-- A GET request, used to exercise the method gate. -/
def reqGet : Request := { reqGood with method := "GET" }

/-- C5 counterexample.  The claim says non-POST requests are rejected with
status 400; the code returns 405 (line 137). -/
theorem C5_non_post_rejected_counterexample :
    (handler envResend reqGet).1.status = 405 ∧
      ¬ (handler envResend reqGet).1.status = 400 := by
  refine ⟨by decide, by decide⟩

theorem C5_non_post_rejected_witness :
    handler envResend reqGet = (⟨405, false, "Method not allowed"⟩, []) :=
  C5_non_post_rejected envResend reqGet (by decide)

/-! ## C6: email validation -/

theorem emailRegexOK_false_of_no_at {e : String}
    (h : e.data.contains '@' = false) : emailRegexOK e = false := by
  have hnot : '@' ∉ e.data := by
    simp at h
    exact h
  have hcount : e.data.count '@' = 0 := List.count_eq_zero.mpr hnot
  unfold emailRegexOK
  simp [hcount]

theorem contains_false_of_sublist {l₁ l₂ : List Char} {c : Char}
    (hs : l₁.Sublist l₂) (h : l₂.contains c = false) :
    l₁.contains c = false := by
  cases hq : l₁.contains c with
  | false => rfl
  | true =>
    exfalso
    have h1 : c ∈ l₁ := by simpa using hq
    have h2 : c ∈ l₂ := List.Sublist.mem h1 hs
    have h3 : l₂.contains c = true := by simpa using h2
    rw [h3] at h
    exact Bool.noConfusion h

theorem emailRegexOK_false_of_no_dot {e : String}
    (h : ((e.data.dropWhile (fun c => c ≠ '@')).drop 1).contains '.' = false) :
    emailRegexOK e = false := by
  have hdot :
      ((((e.data.dropWhile (fun c => c ≠ '@')).drop 1).drop 1).dropLast).contains '.' = false :=
    contains_false_of_sublist
      (List.Sublist.trans (List.dropLast_sublist _) (List.drop_sublist _ _)) h
  simp only [emailRegexOK]
  rw [hdot]
  simp

/-- C6.  For every verified POST request whose email, after extraction,
trimming and lowercasing, is malformed — empty, containing no `@`, or with
no `.` after the `@` — the handler responds 400 with `ok = false` and an
empty effect trace: no commerce-platform call, no minting, and no mail send
has occurred. -/
theorem C6_malformed_email_rejected (env : Env) (req : Request)
    (hm : req.method = "POST")
    (hv : verifyProxySignature env.hmacHex env.secret req.urlParts = true)
    (hbad : normalizeEmail req.bodyEmail = "" ∨
      (normalizeEmail req.bodyEmail).data.contains '@' = false ∨
      (((normalizeEmail req.bodyEmail).data.dropWhile
          (fun c => c ≠ '@')).drop 1).contains '.' = false) :
    handler env req = (⟨400, false, "Please enter a valid email."⟩, []) := by
  unfold handler
  rcases hbad with h | h | h
  · simp [hm, hv, h]
  · simp [hm, hv, emailRegexOK_false_of_no_at h]
  · simp [hm, hv, emailRegexOK_false_of_no_dot h]

theorem C6_malformed_email_rejected_witness :
    handler envResend { reqGood with bodyEmail := some "not-an-email" } =
        (⟨400, false, "Please enter a valid email."⟩, []) ∧
      handler envResend { reqGood with bodyEmail := some "a@bc" } =
        (⟨400, false, "Please enter a valid email."⟩, []) ∧
      handler envResend { reqGood with bodyEmail := none } =
        (⟨400, false, "Please enter a valid email."⟩, []) := by
  refine ⟨?_, ?_, ?_⟩
  · exact C6_malformed_email_rejected envResend _ (by decide) (by decide)
      (Or.inr (Or.inl (by decide)))
  · exact C6_malformed_email_rejected envResend _ (by decide) (by decide)
      (Or.inr (Or.inr (by decide)))
  · exact C6_malformed_email_rejected envResend _ (by decide) (by decide)
      (Or.inl (by decide))

/-! ## C7: order-existence check -/

/-- C7 (amended).  The order-existence check returns `true` iff at least one
order whose fulfillment status is `unfulfilled` or `fulfilled` exists for
the email; orders in other fulfillment states (the search string of line 46
names only those two statuses) do not block issuance. -/
theorem C7_order_check (store : List Order) (email : String) :
    emailHasAnyOrders store email = true ↔
      ∃ o ∈ store, o.email = email ∧
        (o.status = FulfillStatus.unfulfilled ∨
          o.status = FulfillStatus.fulfilled) := by
  unfold emailHasAnyOrders
  rw [decide_eq_true_eq]
  constructor
  · intro h
    have hne : (store.filter (orderMatchesSearch email)) ≠ [] := by
      intro hnil
      rw [hnil] at h
      simp at h
    obtain ⟨o, ho⟩ := List.exists_mem_of_ne_nil _ hne
    have hmem := List.mem_filter.mp ho
    refine ⟨o, hmem.1, ?_⟩
    have := hmem.2
    unfold orderMatchesSearch at this
    simpa using this
  · intro ⟨o, hmem, he, hs⟩
    have hf : o ∈ store.filter (orderMatchesSearch email) := by
      rw [List.mem_filter]
      refine ⟨hmem, ?_⟩
      unfold orderMatchesSearch
      rcases hs with h | h <;> simp [he, h]
    have : store.filter (orderMatchesSearch email) ≠ [] := by
      intro hnil
      rw [hnil] at hf
      simp at hf
    have hlen : 0 < (store.filter (orderMatchesSearch email)).length :=
      List.length_pos.mpr this
    simp [List.length_take]
    omega

theorem C7_order_check_witness :
    emailHasAnyOrders [⟨"a@b.co", FulfillStatus.fulfilled⟩] "a@b.co" = true :=
  (C7_order_check [⟨"a@b.co", FulfillStatus.fulfilled⟩] "a@b.co").mpr
    ⟨⟨"a@b.co", FulfillStatus.fulfilled⟩, by simp, rfl, Or.inr rfl⟩

/-- C7 counterexample.  A partially fulfilled order exists for the email,
yet the check reports no orders: the claim's "any fulfillment state" is
false of the code, whose search names only `unfulfilled` and `fulfilled`. -/
theorem C7_order_check_counterexample :
    emailHasAnyOrders [⟨"a@b.co", FulfillStatus.partlyFulfilled⟩] "a@b.co" = false ∧
      ∃ o ∈ ([⟨"a@b.co", FulfillStatus.partlyFulfilled⟩] : List Order),
        o.email = "a@b.co" := by
  refine ⟨by decide, ⟨"a@b.co", FulfillStatus.partlyFulfilled⟩, by decide, by decide⟩

/-! ## C8: code format and discount configuration -/

/-- Uppercase hexadecimal digit characters. -/
def isUpperHexDigit (c : Char) : Bool :=
  "0123456789ABCDEF".data.contains c

theorem upperHex_of_lt16 :
    ∀ n, n < 16 → isUpperHexDigit ((hexChar n).toUpper) = true := by decide

/-- C8.  Every candidate code is the literal text `WELCOME-` followed by
exactly 6 uppercase hexadecimal characters derived from the 3 random bytes;
and every discount-creation input is configured as a percentage discount of
exactly 10% (the rational `1/10`), usage limit 1, applying at most once per
customer, all customers, all products, starting at the current timestamp.
The input structure (lines 66-74) carries no end date, so the discount has
no expiry. -/
theorem C8_code_format_and_discount_config :
    (∀ bs : List Nat, bs.length = 3 → (∀ b ∈ bs, b < 256) →
      makeCode bs = "WELCOME-" ++ upperHexStr bs ∧
        (upperHexStr bs).data.length = 6 ∧
        ∀ c ∈ (upperHexStr bs).data, isUpperHexDigit c = true) ∧
      (∀ now code,
        (mkDiscountInput now code).percentage = 1 / 10 ∧
          (mkDiscountInput now code).usageLimit = 1 ∧
          (mkDiscountInput now code).appliesOncePerCustomer = true ∧
          (mkDiscountInput now code).customerSelectionAll = true ∧
          (mkDiscountInput now code).itemsAll = true ∧
          (mkDiscountInput now code).startsAt = now ∧
          (mkDiscountInput now code).title = "Welcome 10% - First Purchase" ∧
          (mkDiscountInput now code).code = code) := by
  constructor
  · intro bs hlen hb
    obtain ⟨a, b, c, rfl⟩ := List.length_eq_three.mp hlen
    have ha : a < 256 := hb a (by simp)
    have hbb : b < 256 := hb b (by simp)
    have hc : c < 256 := hb c (by simp)
    refine ⟨rfl, ?_, ?_⟩
    · simp [upperHexStr, byteToHex]
    · intro ch hch
      simp [upperHexStr, byteToHex] at hch
      rcases hch with h | h | h | h | h | h <;> subst h <;>
        exact upperHex_of_lt16 _ (by omega)
  · intro now code
    exact ⟨rfl, rfl, rfl, rfl, rfl, rfl, rfl, rfl⟩

theorem C8_code_format_witness :
    makeCode [1, 154, 255] = "WELCOME-" ++ upperHexStr [1, 154, 255] ∧
      (upperHexStr [1, 154, 255]).data.length = 6 ∧
      (mkDiscountInput "2026-01-01T00:00:00.000Z" "WELCOME-019AFF").usageLimit = 1 := by
  have h1 := C8_code_format_and_discount_config.1 [1, 154, 255]
    (by decide) (by decide)
  have h2 := C8_code_format_and_discount_config.2
    "2026-01-01T00:00:00.000Z" "WELCOME-019AFF"
  exact ⟨h1.1, h1.2.1, h2.2.1⟩

/-! ## C9: empty metafield value counts as no code -/

theorem mint_trace_no_sends (env : Env) :
    ∀ fuel t, emailSendsOf (mintAttempts env t fuel).2 = [] := by
  intro fuel
  induction fuel with
  | zero => intro t; simp [mintAttempts, emailSendsOf]
  | succ n ih =>
    intro t
    rw [mintAttempts_succ]
    cases h : env.createDiscount t (attemptInput env t) with
    | ok c => simp [emailSendsOf]
    | error m =>
      by_cases ht : msgSaysTaken m
      · have := ih (t + 1)
        simp only [ht, if_true]
        simp [emailSendsOf] at this ⊢
        exact this
      · simp [ht, emailSendsOf]

/-- C9.  When the customer's stored welcome-code metafield exists but its
value is the empty string, the lookup reports no existing code, so the
workflow does not resend: it proceeds to the order-eligibility check, and
when eligible it mints and stores (overwrites) a fresh code, which is the
only code emailed. -/
theorem C9_empty_metafield_no_resend (env : Env) (req : Request)
    (pc : PlatformCustomer) (code : String)
    (hm : req.method = "POST")
    (hv : verifyProxySignature env.hmacHex env.secret req.urlParts = true)
    (he : emailRegexOK (normalizeEmail req.bodyEmail) = true)
    (hq : env.customerQuery (normalizeEmail req.bodyEmail) = Except.ok (some pc))
    (hmv : pc.metafieldValue = some "")
    (ho : env.ordersResult (normalizeEmail req.bodyEmail) = Except.ok false)
    (hmint : (mintAttempts env 0 5).1 = Except.ok code)
    (hset : env.metafieldRes = Except.ok ())
    (hmail : env.sendMailRes = Except.ok ()) :
    (getCustomerAndExistingCode env (normalizeEmail req.bodyEmail)).1 =
        Except.ok (pc.id, none) ∧
      (handler env req).1 = ⟨200, true, "Your 10% code has been emailed."⟩ ∧
      Effect.ordersQuery (ordersSearchQuery (normalizeEmail req.bodyEmail)) ∈
        (handler env req).2 ∧
      Effect.metafieldSet pc.id "welcome" "code" code ∈ (handler env req).2 ∧
      emailSendsOf (handler env req).2 =
        [(normalizeEmail req.bodyEmail, code)] := by
  have hlk : getCustomerAndExistingCode env (normalizeEmail req.bodyEmail) =
      (Except.ok (pc.id, none),
        [Effect.customersQuery (normalizeEmail req.bodyEmail)]) := by
    simp [getCustomerAndExistingCode, hq, hmv]
  have hg := handler_passes_gate env req hm hv he
  have hh : handler env req =
      (⟨200, true, "Your 10% code has been emailed."⟩,
        [Effect.customersQuery (normalizeEmail req.bodyEmail)] ++
          [Effect.ordersQuery (ordersSearchQuery (normalizeEmail req.bodyEmail))] ++
          (mintAttempts env 0 5).2 ++
          [Effect.metafieldSet pc.id "welcome" "code" code] ++
          [Effect.emailSend (normalizeEmail req.bodyEmail) code]) := by
    rw [hg]
    simp only [issueFlow, hlk, ho, hmint, hset, hmail]
  refine ⟨by rw [hlk], by rw [hh], ?_, ?_, ?_⟩
  · rw [hh]
    simp
  · rw [hh]
    simp
  · rw [hh]
    simp only [emailSendsOf_append, mint_trace_no_sends]
    simp [emailSendsOf]

/-- Concrete environment whose customer carries an empty-string welcome-code
metafield. -/
def envEmptyMeta : Env :=
  { envResend with customerQuery := fun _ => Except.ok (some ⟨"gid1", some ""⟩) }

theorem C9_empty_metafield_no_resend_witness :
    (getCustomerAndExistingCode envEmptyMeta "user@example.com").1 =
        Except.ok ("gid1", none) ∧
      (handler envEmptyMeta reqGood).1 =
        ⟨200, true, "Your 10% code has been emailed."⟩ ∧
      Effect.metafieldSet "gid1" "welcome" "code" "WELCOME-010203" ∈
        (handler envEmptyMeta reqGood).2 ∧
      emailSendsOf (handler envEmptyMeta reqGood).2 =
        [("user@example.com", "WELCOME-010203")] := by
  have h := C9_empty_metafield_no_resend envEmptyMeta reqGood
    ⟨"gid1", some ""⟩ "WELCOME-010203"
    (by decide) (by decide) (by decide) rfl rfl rfl rfl rfl rfl
  exact ⟨h.1, h.2.1, h.2.2.2.1, h.2.2.2.2⟩

/-! ## C10: email normalization hyperproperty -/

/-- C10.  The handler uses the submitted email only through line 140's
trim-and-lowercase normalization, so any two requests with the same method
and URL whose email fields normalize identically — in particular, emails
differing only in letter case or in surrounding whitespace — produce the
identical response and the identical effect trace. -/
theorem C10_email_normalization (env : Env) (req1 req2 : Request)
    (hm : req1.method = req2.method)
    (hu : req1.urlParts = req2.urlParts)
    (he : normalizeEmail req1.bodyEmail = normalizeEmail req2.bodyEmail) :
    handler env req1 = handler env req2 := by
  unfold handler
  rw [hm, hu, he]

theorem C10_email_normalization_witness :
    handler envResend reqGood =
      handler envResend { reqGood with bodyEmail := some "USER@EXAMPLE.COM" } :=
  C10_email_normalization envResend reqGood
    { reqGood with bodyEmail := some "USER@EXAMPLE.COM" } rfl rfl (by decide)

end WelcomeProxy
